import Mathlib

/-!
Verification of the bio-memex lab video analysis core against its
natural-language specification.

The repository ships the pipeline notebooks, the recorded artifacts of the
video_processing pipeline (in particular the generated merged_timeline.json,
embedded below as data), and design documents.  The merger and reducer
sources themselves (event_merger.py and the models module) are not part of
the source snapshot, so the Timeline Merger and State Reducer are modelled
here from the specification text, while the recorded merged timeline is
embedded verbatim from the repository data and used as ground truth where it
decides a claim.
-/

namespace BioMemex

/-- Event variant tags of the merged timeline, as they appear in the
event_type field of merged_timeline.json. -/
inductive EType where
  | warning
  | pipette_setting
  | tip_change
  | aspiration
  | dispensing
  | well_state
deriving DecidableEq, Repr

/-- Fixed variant priority of the specification ordering rule: Warning,
PipetteSettingChange, TipChange, Aspiration, Dispensing, WellState. -/
def variantPriority : EType → Nat
  | .warning => 0
  | .pipette_setting => 1
  | .tip_change => 2
  | .aspiration => 3
  | .dispensing => 4
  | .well_state => 5

/-- One annotated entry of the merged timeline: resolved start and end
seconds, variant tag, and the source time-range string carried inside the
entry (the timestamp_range field of its event_model). -/
structure MEntry where
  start_time : ℚ
  end_time : ℚ
  etype : EType
  ts_range : String
deriving DecidableEq, Repr

/-- Strict comparison on the specification sort key (start time, then the
fixed variant priority), lexicographically. -/
def keyLT (a b : MEntry) : Bool :=
  decide (a.start_time < b.start_time) ||
    (decide (a.start_time = b.start_time) &&
      decide (variantPriority a.etype < variantPriority b.etype))

/-- Stable insertion of an entry into a list: the entry passes over every
element strictly smaller on the key and lands before the first element that
is not strictly smaller, hence before later equal-key elements. -/
def insertEntry (x : MEntry) : List MEntry → List MEntry
  | [] => [x]
  | y :: ys => if keyLT y x then y :: insertEntry x ys else x :: y :: ys

/-- Stable insertion sort on the specification key.  Folding from the right
inserts earlier source elements last, so an earlier element ends up before
every equal-key later element. -/
def insertionSortE (l : List MEntry) : List MEntry :=
  l.foldr insertEntry []

/-- Modelled from the spec: the Timeline Merger (event_merger.py is absent
from the source snapshot).  It concatenates the three per-source-ordered
lists and stable-sorts by primary key start time ascending with the fixed
variant priority as tie-break. -/
def mergeTimelines (objective analysis procedure : List MEntry) : List MEntry :=
  insertionSortE (objective ++ analysis ++ procedure)

/-- Adjacent-pairs check that a list is ordered by the specification key
(start time, then variant priority). -/
def specOrdered : List MEntry → Bool
  | [] => true
  | [_] => true
  | x :: y :: rest => !keyLT y x && specOrdered (y :: rest)

/-- Adjacent-pairs check that a list is ordered by start time alone. -/
def orderedByStart : List MEntry → Bool
  | [] => true
  | [_] => true
  | x :: y :: rest => decide (x.start_time ≤ y.start_time) && orderedByStart (y :: rest)

/-- The recorded merged timeline of the repository, embedded entry by entry
from merged_timeline.json (start_time, end_time, event_type, and the
timestamp_range string of the event_model), in its recorded order. -/
def mergedTimeline : List MEntry :=
  [ ⟨5, 8, .warning, "0:00 - 0:04"⟩
  , ⟨7, 9, .pipette_setting, "0:07 - 0:09"⟩
  , ⟨13, 14, .tip_change, "0:11 - 0:12"⟩
  , ⟨18, 19, .aspiration, "0:13 - 0:14"⟩
  , ⟨20, 22, .dispensing, "0:15 - 0:16"⟩
  , ⟨21, 22, .well_state, "0:15 - 0:16"⟩
  , ⟨24, 25, .aspiration, "0:17 - 0:18"⟩
  , ⟨27, 28, .dispensing, "0:20 - 0:21"⟩
  , ⟨28, 29, .well_state, "0:20 - 0:21"⟩
  , ⟨34, 35, .tip_change, "0:29 - 0:30"⟩
  , ⟨35, 36, .tip_change, "0:35 - 0:36"⟩
  , ⟨39, 40, .aspiration, "0:37 - 0:38"⟩
  , ⟨42, 43, .dispensing, "0:41 - 0:42"⟩
  , ⟨43, 44, .well_state, "0:41 - 0:42"⟩
  , ⟨43, 46, .warning, "0:43 - 0:44"⟩
  , ⟨46, 47, .aspiration, "0:43 - 0:44"⟩
  , ⟨48, 49, .dispensing, "0:45 - 0:46"⟩
  , ⟨49, 50, .well_state, "0:45 - 0:46"⟩
  , ⟨51, 52, .tip_change, "0:50 - 0:51"⟩
  , ⟨57, 58, .tip_change, "0:54 - 0:55"⟩
  , ⟨59, 60, .aspiration, "0:56 - 0:57"⟩
  , ⟨61, 62, .dispensing, "0:59 - 1:00"⟩
  , ⟨62, 63, .well_state, "0:59 - 1:00"⟩
  , ⟨63, 65, .warning, "1:03 - 1:04"⟩
  , ⟨67, 68, .aspiration, "1:03 - 1:04"⟩
  , ⟨69, 70, .dispensing, "1:06 - 1:07"⟩
  , ⟨70, 71, .well_state, "1:06 - 1:07"⟩
  , ⟨70, 71, .tip_change, "1:10 - 1:11"⟩ ]

/-- Numeric value of a decimal digit character, none for any other
character. -/
def digitVal (c : Char) : Option Nat :=
  if c.isDigit then some (c.toNat - 48) else none

/-- Accumulating decimal reader over a character list, failing on any
non-digit. -/
def readDigits (acc : Nat) : List Char → Option Nat
  | [] => some acc
  | c :: cs =>
    match digitVal c with
    | some d => readDigits (acc * 10 + d) cs
    | none => none

/-- Decimal number from a non-empty all-digit character list. -/
def parseDecimal : List Char → Option Nat
  | [] => none
  | cs => readDigits 0 cs

/-- Split a character list at the first occurrence of the separator,
failing when the separator is absent. -/
def splitOnce (sep : Char) : List Char → Option (List Char × List Char)
  | [] => none
  | c :: cs =>
    if c = sep then some ([], cs)
    else (splitOnce sep cs).map (fun p => (c :: p.1, p.2))

/-- Strip leading and trailing space characters. -/
def trimSpaces (cs : List Char) : List Char :=
  ((cs.dropWhile (· = ' ')).reverse.dropWhile (· = ' ')).reverse

/-- Convert an MM:SS character list to seconds. -/
def mmssToSecs (cs : List Char) : Option Nat :=
  (splitOnce ':' cs).bind fun p =>
    (parseDecimal p.1).bind fun m =>
      (parseDecimal p.2).map fun s => m * 60 + s

/-- Modelled from the spec: conversion of a time-range string of the form
MM:SS - MM:SS into a pair of second counts (the parsing step of the Event
Model is absent from the source snapshot). -/
def tsRangeToSecs (s : String) : Option (Nat × Nat) :=
  (splitOnce '-' s.toList).bind fun p =>
    (mmssToSecs (trimSpaces p.1)).bind fun a =>
      (mmssToSecs (trimSpaces p.2)).map fun b => (a, b)

/-- Warning kinds of the data model. -/
inductive WKind where
  | cross_contamination
  | volume_discrepancy
  | technique_error
  | protocol_deviation
deriving DecidableEq, Repr

/-- Warning severities of the data model. -/
inductive WSeverity where
  | low
  | medium
  | high
  | critical
deriving DecidableEq, Repr

/-- One entry of the tip contamination history: the reagent touched, and
whether the tip later entered a well while carrying it (dispensing into a
well rather than drawing from a clean source), which raises the severity of
a later cross contamination warning. -/
structure ContamEntry where
  reagent : String
  viaWellDispense : Bool
deriving DecidableEq, Repr

/-- Modelled from the spec: PipetteState of the data model (the models
module is absent from the source snapshot). -/
structure PipetteState where
  volume_setting : ℚ
  held_reagent : Option String
  held_volume : ℚ
  tip_present : Bool
  contamination_history : List ContamEntry
deriving DecidableEq, Repr

/-- One recorded deposit into a well. -/
structure Deposit where
  reagent : String
  volume : ℚ
  timestamp : ℚ
deriving DecidableEq, Repr

/-- Modelled from the spec: WellContents with its derived completion
flag. -/
structure WellContents where
  deposits : List Deposit
  is_complete : Bool
deriving DecidableEq, Repr

/-- Modelled from the spec: a Warning record; absDiff and relDiff carry the
absolute and relative difference of a volume discrepancy. -/
structure Warn where
  kind : WKind
  severity : WSeverity
  message : String
  timestamp : ℚ
  absDiff : Option ℚ
  relDiff : Option ℚ
deriving DecidableEq, Repr

/-- Modelled from the spec: a ContaminationEdge produced by the reducer. -/
structure ContaminationEdge where
  source_reagent : String
  target_reagent : String
  timestamp : ℚ
  evidence : List ContamEntry
deriving DecidableEq, Repr

/-- Modelled from the spec: the aggregate ExperimentState.  Containers map
a reagent source to its remaining volume; goals map a well id to its
required (reagent, volume) list. -/
structure ExperimentState where
  pipette : PipetteState
  containers : List (String × ℚ)
  wells : List (String × WellContents)
  goals : List (String × List (String × ℚ))
  warnings : List Warn
  edges : List ContaminationEdge
deriving DecidableEq, Repr

/-- Semantic payload of a timeline event consumed by the reducer. -/
inductive REvent where
  | settingChange (v : ℚ)
  | tipChange
  | aspiration (reagent : String) (volume : ℚ)
  | dispensing (reagent : String) (volume : ℚ) (well : String)
  | wellState (well : String) (isComplete : Bool)
  | warningEvt (kind : WKind) (severity : WSeverity)
deriving DecidableEq, Repr

/-- A timeline entry as seen by the reducer: resolved start second plus the
variant payload. -/
structure TEvent where
  time : ℚ
  data : REvent
deriving DecidableEq, Repr

/-- Association list lookup by string key. -/
def alookup {α : Type} (k : String) : List (String × α) → Option α
  | [] => none
  | p :: rest => if p.1 = k then some p.2 else alookup k rest

/-- Association list update by string key, appending when absent. -/
def aset {α : Type} (k : String) (v : α) : List (String × α) → List (String × α)
  | [] => [(k, v)]
  | p :: rest => if p.1 = k then (p.1, v) :: rest else p :: aset k v rest

/-- Absolute value on the rationals, written out so that it evaluates by
plain case analysis. -/
def ratAbs (q : ℚ) : ℚ := if q < 0 then -q else q

/-- Modelled from the spec: the volume tolerance, five percent of the
intended volume or one microliter, whichever is larger. -/
def volTolerance (intended : ℚ) : ℚ :=
  if intended * (5 / 100) ≤ 1 then 1 else intended * (5 / 100)

/-- Volume match within tolerance of the required volume. -/
def volWithinTol (dep req : ℚ) : Bool :=
  decide (ratAbs (dep - req) ≤ volTolerance req)

/-- All ways of removing one deposit matching a required (name, volume)
pair from a deposit list. -/
def pickMatches (name : String) (reqVol : ℚ) : List Deposit → List (List Deposit)
  | [] => []
  | d :: ds =>
    let rest := (pickMatches name reqVol ds).map (fun r => d :: r)
    if d.reagent = name ∧ volWithinTol d.volume reqVol then ds :: rest else rest

/-- Exact multiset matching of a requirement list against a deposit list:
every requirement consumes one matching deposit and no deposit is left
over. -/
def matchReq : List (String × ℚ) → List Deposit → Bool
  | [], deps => deps.isEmpty
  | r :: reqs, deps => (pickMatches r.1 r.2 deps).any (fun rem => matchReq reqs rem)

/-- Modelled from the spec: completion flag of a well, set equality of the
dispensed (reagent, volume within tolerance) multiset against the matching
GoalWell requirement list. -/
def wellComplete (deps : List Deposit) (req : List (String × ℚ)) : Bool :=
  matchReq req deps

/-- Mark the last contamination history entry as having passed through a
well dispense. -/
def markLastViaWell : List ContamEntry → List ContamEntry
  | [] => []
  | [e] => [{ e with viaWellDispense := true }]
  | e :: rest => e :: markLastViaWell rest

/-- Severity of a cross contamination warning: high when the prior contact
came from dispensing into a well, else medium. -/
def ccSeverity (h : List ContamEntry) : WSeverity :=
  match h.getLast? with
  | some last => if last.viaWellDispense then .high else .medium
  | none => .medium

/-- The technique error warning emitted on a dispensing with no or the
wrong held reagent. -/
def techErr (t : ℚ) : Warn :=
  ⟨.technique_error, .medium, "technique error", t, none, none⟩

/-- Modelled from the spec: the Aspiration transition of the State Reducer.
It emits a cross contamination warning and edge when the most recent
contamination history entry names a different reagent, then loads the tip,
appends the reagent to the history, and decrements the matching container,
clamping to zero with a volume discrepancy warning instead of failing. -/
def aspStep (s : ExperimentState) (t : ℚ) (r : String) (v : ℚ) : ExperimentState :=
  let h := s.pipette.contamination_history
  let cw : List Warn :=
    match h.getLast? with
    | some last =>
      if last.reagent = r then []
      else [⟨.cross_contamination, ccSeverity h, "cross contamination", t, none, none⟩]
    | none => []
  let ce : List ContaminationEdge :=
    match h.getLast? with
    | some last => if last.reagent = r then [] else [⟨last.reagent, r, t, h⟩]
    | none => []
  let cupd : List (String × ℚ) × List Warn :=
    match alookup r s.containers with
    | some rem =>
      if rem < v then
        (aset r 0 s.containers,
          [⟨.volume_discrepancy, .medium, "container clamped", t, some (v - rem), none⟩])
      else (aset r (rem - v) s.containers, [])
    | none => (s.containers, [])
  { s with
    pipette :=
      { s.pipette with
        held_reagent := some r
        held_volume := v
        contamination_history := h ++ [⟨r, false⟩] }
    containers := cupd.1
    warnings := s.warnings ++ cw ++ cupd.2
    edges := s.edges ++ ce }

/-- Modelled from the spec: the Dispensing transition of the State Reducer.
With no held reagent or a different held reagent it only emits a technique
error warning; otherwise it appends the deposit, recomputes the completion
flag against the GoalWell, clears the held reagent, marks the last
contamination contact as via a well, and emits a volume discrepancy warning
with absolute and relative difference when the dispensed volume differs
from the aspirated volume by more than the tolerance. -/
def dispStep (s : ExperimentState) (t : ℚ) (r : String) (v : ℚ) (well : String) :
    ExperimentState :=
  match s.pipette.held_reagent with
  | none => { s with warnings := s.warnings ++ [techErr t] }
  | some hr =>
    if hr = r then
      let old := (alookup well s.wells).getD ⟨[], false⟩
      let deps := old.deposits ++ [⟨r, v, t⟩]
      let req := (alookup well s.goals).getD []
      let hv := s.pipette.held_volume
      let vw : List Warn :=
        if volTolerance hv < ratAbs (v - hv) then
          [⟨.volume_discrepancy, .medium, "volume discrepancy", t,
            some (ratAbs (v - hv)), some (if hv = 0 then 0 else ratAbs (v - hv) / hv)⟩]
        else []
      { s with
        pipette :=
          { s.pipette with
            held_reagent := none
            held_volume := 0
            contamination_history := markLastViaWell s.pipette.contamination_history }
        wells := aset well ⟨deps, wellComplete deps req⟩ s.wells
        warnings := s.warnings ++ vw }
    else { s with warnings := s.warnings ++ [techErr t] }

/-- Modelled from the spec: the WellState reconciliation transition; a
protocol deviation warning is emitted when the analysis stream disagrees
with the derived completion flag, and the derived state stays
authoritative. -/
def wellStateStep (s : ExperimentState) (t : ℚ) (well : String) (isC : Bool) :
    ExperimentState :=
  let derived := ((alookup well s.wells).map (fun wc => wc.is_complete)).getD false
  if derived = isC then s
  else { s with warnings := s.warnings ++
    [⟨.protocol_deviation, .low, "well state mismatch", t, none, none⟩] }

/-- Modelled from the spec: a Warning event is appended verbatim to the
warning log with no other mutation. -/
def warnStep (s : ExperimentState) (t : ℚ) (k : WKind) (sev : WSeverity) :
    ExperimentState :=
  { s with warnings := s.warnings ++ [⟨k, sev, "analysis warning", t, none, none⟩] }

/-- Modelled from the spec: one State Reducer step over a timeline entry
(the reducer source is absent from the source snapshot).  The step is a
total function: every event yields a next state. -/
def step (s : ExperimentState) (e : TEvent) : ExperimentState :=
  match e.data with
  | .settingChange v => { s with pipette := { s.pipette with volume_setting := v } }
  | .tipChange =>
    { s with pipette :=
      { s.pipette with
        tip_present := true
        contamination_history := []
        held_reagent := none
        held_volume := 0 } }
  | .aspiration r v => aspStep s e.time r v
  | .dispensing r v w => dispStep s e.time r v w
  | .wellState w b => wellStateStep s e.time w b
  | .warningEvt k sev => warnStep s e.time k sev

/-- Sequential fold of the reducer over an ordered timeline. -/
def reduceTimeline (s : ExperimentState) (es : List TEvent) : ExperimentState :=
  es.foldl step s

/-- Modelled from the spec: the session start state built from the
procedure context, with the pipette in its no tip, clean initial state and
wells pre-seeded from the GoalWell declarations. -/
def initState (goals : List (String × List (String × ℚ)))
    (containers : List (String × ℚ)) : ExperimentState :=
  { pipette := ⟨0, none, 0, false, []⟩
    containers := containers
    wells := goals.map (fun g => (g.1, ⟨[], wellComplete [] g.2⟩))
    goals := goals
    warnings := []
    edges := [] }

/-- Number of warnings of a given kind in a warning log. -/
def countKind (k : WKind) (ws : List Warn) : Nat :=
  (ws.filter (fun w => decide (w.kind = k))).length

/-- Recognizer for aspiration timeline events. -/
def isAspiration (e : TEvent) : Bool :=
  match e.data with
  | .aspiration _ _ => true
  | _ => false

/-- Recognizer for tip change timeline events. -/
def isTipChange (e : TEvent) : Bool :=
  match e.data with
  | .tipChange => true
  | _ => false

/-- Recognizer for analysis stream warning events of kind cross
contamination. -/
def isCCWarningEvt (e : TEvent) : Bool :=
  match e.data with
  | .warningEvt k _ => decide (k = .cross_contamination)
  | _ => false

/-- Whether a merged timeline entry resolves to exactly the seconds parsed
from its source time-range string. -/
def entryMatchesRange (e : MEntry) : Bool :=
  match tsRangeToSecs e.ts_range with
  | some p => decide (e.start_time = (p.1 : ℚ)) && decide (e.end_time = (p.2 : ℚ))
  | none => false

/-- Whether a merged timeline entry has a parsable time-range string whose
parsed seconds bound the resolved seconds from below. -/
def entryRangeParses (e : MEntry) : Bool :=
  match tsRangeToSecs e.ts_range with
  | some p => decide ((p.1 : ℚ) ≤ e.start_time) && decide ((p.2 : ℚ) ≤ e.end_time)
  | none => false

/-- The completion flag invariant: every tracked well carries exactly the
completion flag computed from its deposits and its GoalWell
requirements. -/
def WellsInv (s : ExperimentState) : Prop :=
  ∀ w wc, alookup w s.wells = some wc →
    wc.is_complete = wellComplete wc.deposits ((alookup w s.goals).getD [])

/-- Strict key comparison is asymmetric. -/
lemma keyLT_asymm {a b : MEntry} (h : keyLT a b = true) : keyLT b a = false := by
  simp only [keyLT, Bool.or_eq_true, Bool.and_eq_true, decide_eq_true_eq] at h
  simp only [keyLT, Bool.or_eq_false_iff, Bool.and_eq_false_iff,
    decide_eq_false_iff_not, not_lt]
  rcases h with h | ⟨h1, h2⟩
  · exact ⟨le_of_lt h, Or.inl fun he => absurd (he ▸ h) (lt_irrefl _)⟩
  · exact ⟨le_of_eq h1, Or.inr (by omega)⟩

/-- Dropping the head of a spec-ordered list keeps it spec-ordered. -/
lemma specOrdered_cons {x : MEntry} {l : List MEntry}
    (h : specOrdered (x :: l) = true) : specOrdered l = true := by
  cases l with
  | nil => rfl
  | cons y ys =>
    simp only [specOrdered, Bool.and_eq_true] at h
    exact h.2

/-- Stable insertion preserves spec-ordering. -/
lemma specOrdered_insertEntry (x : MEntry) {l : List MEntry}
    (h : specOrdered l = true) : specOrdered (insertEntry x l) = true := by
  induction l with
  | nil => rfl
  | cons y ys ih =>
    by_cases hc : keyLT y x = true
    · rw [insertEntry, if_pos hc]
      have hi := ih (specOrdered_cons h)
      cases ys with
      | nil =>
        simp [insertEntry, specOrdered, keyLT_asymm hc]
      | cons z zs =>
        by_cases hz : keyLT z x = true
        · rw [insertEntry, if_pos hz]
          rw [insertEntry, if_pos hz] at hi
          simp only [specOrdered, Bool.and_eq_true] at h ⊢
          exact ⟨h.1, hi⟩
        · rw [insertEntry, if_neg hz]
          rw [insertEntry, if_neg hz] at hi
          simp only [specOrdered, Bool.and_eq_true] at hi ⊢
          refine ⟨?_, hi⟩
          simp [keyLT_asymm hc]
    · rw [insertEntry, if_neg hc]
      simp only [specOrdered, Bool.and_eq_true]
      refine ⟨?_, h⟩
      simp [Bool.eq_false_iff.mpr hc]

/-- The modelled insertion sort always produces a spec-ordered list. -/
lemma specOrdered_insertionSortE (l : List MEntry) :
    specOrdered (insertionSortE l) = true := by
  induction l with
  | nil => rfl
  | cons x xs ih => exact specOrdered_insertEntry x ih

/-- The modelled insertion sort is the identity on spec-ordered lists. -/
lemma insertionSortE_of_sorted {l : List MEntry} (h : specOrdered l = true) :
    insertionSortE l = l := by
  induction l with
  | nil => rfl
  | cons x xs ih =>
    have hx : insertionSortE (x :: xs) = insertEntry x (insertionSortE xs) := rfl
    rw [hx, ih (specOrdered_cons h)]
    cases xs with
    | nil => rfl
    | cons y ys =>
      simp only [specOrdered, Bool.and_eq_true] at h
      have hk : keyLT y x = false := by simpa using h.1
      rw [insertEntry, if_neg (by simp [hk])]

/-- Warning counts add over list append. -/
lemma countKind_append (k : WKind) (a b : List Warn) :
    countKind k (a ++ b) = countKind k a + countKind k b := by
  simp [countKind, List.filter_append]

/-- Warning count of a singleton log. -/
lemma countKind_single (k : WKind) (w : Warn) :
    countKind k [w] = if w.kind = k then 1 else 0 := by
  by_cases h : w.kind = k <;> simp [countKind, List.filter, h]

/-- Lookup after an association update. -/
lemma alookup_aset {α : Type} (k w : String) (v : α) (l : List (String × α)) :
    alookup w (aset k v l) = if k = w then some v else alookup w l := by
  induction l with
  | nil =>
    by_cases h : k = w <;> simp [aset, alookup, h]
  | cons p ps ih =>
    by_cases hp : p.1 = k
    · subst hp
      by_cases hw : p.1 = w <;> simp [aset, alookup, hw]
    · have : aset k v (p :: ps) = p :: aset k v ps := by simp [aset, hp]
      rw [this]
      by_cases hw : p.1 = w
      · have hkw : k ≠ w := fun he => hp (by rw [hw, he])
        simp [alookup, hw, hkw]
      · simp [alookup, hw, ih]

/-- Every element of an association update either carries the new value or
was already present. -/
lemma mem_aset {α : Type} {k : String} {v : α} {l : List (String × α)}
    {q : String × α} (h : q ∈ aset k v l) : q.2 = v ∨ q ∈ l := by
  induction l with
  | nil =>
    simp [aset] at h
    subst h
    exact Or.inl rfl
  | cons p ps ih =>
    by_cases hp : p.1 = k
    · simp [aset, hp] at h
      rcases h with h | h
      · subst h
        exact Or.inl rfl
      · exact Or.inr (List.mem_cons_of_mem _ h)
    · simp [aset, hp] at h
      rcases h with h | h
      · subst h
        exact Or.inr (List.mem_cons_self _ _)
      · rcases ih h with h2 | h2
        · exact Or.inl h2
        · exact Or.inr (List.mem_cons_of_mem _ h2)

/-- Marking the last contamination contact keeps the reagent of the most
recent entry. -/
lemma markLastViaWell_getLast_reagent (h : List ContamEntry) :
    (markLastViaWell h).getLast?.map (fun c => c.reagent) =
      h.getLast?.map (fun c => c.reagent) := by
  induction h with
  | nil => rfl
  | cons e rest ih =>
    cases rest with
    | nil => rfl
    | cons f rest2 =>
      have hm : markLastViaWell (e :: f :: rest2) = e :: markLastViaWell (f :: rest2) := rfl
      rw [hm]
      have hcons : ∃ g gs, markLastViaWell (f :: rest2) = g :: gs := by
        cases rest2 with
        | nil => exact ⟨_, _, rfl⟩
        | cons f2 rest3 => exact ⟨_, _, rfl⟩
      rcases hcons with ⟨g, gs, hg⟩
      rw [hg, List.getLast?_cons_cons, ← hg, ih, List.getLast?_cons_cons]

/-- A reducer step never changes the goal declarations. -/
lemma step_goals (s : ExperimentState) (e : TEvent) : (step s e).goals = s.goals := by
  rcases e with ⟨t, d⟩
  cases d with
  | settingChange v => rfl
  | tipChange => rfl
  | aspiration r v => rfl
  | dispensing r v w =>
    rcases hh : s.pipette.held_reagent with _ | hr
    · simp [step, dispStep, hh]
    · by_cases hr2 : hr = r <;> simp [step, dispStep, hh, hr2]
  | wellState w b =>
    simp only [step, wellStateStep]
    split <;> rfl
  | warningEvt k sev => rfl

/-- A non-aspiration step that is not an analysis cross contamination
warning leaves the cross contamination warning count and the edge log
unchanged. -/
lemma step_cc_edges (s : ExperimentState) (e : TEvent)
    (ha : isAspiration e = false) (hw : isCCWarningEvt e = false) :
    countKind .cross_contamination (step s e).warnings =
      countKind .cross_contamination s.warnings ∧ (step s e).edges = s.edges := by
  rcases e with ⟨t, d⟩
  cases d with
  | settingChange v => exact ⟨rfl, rfl⟩
  | tipChange => exact ⟨rfl, rfl⟩
  | aspiration r v => simp [isAspiration] at ha
  | dispensing r v w =>
    rcases hh : s.pipette.held_reagent with _ | hr
    · refine ⟨?_, by simp [step, dispStep, hh]⟩
      simp [step, dispStep, hh, countKind_append, countKind_single, techErr]
    · by_cases hr2 : hr = r
      · refine ⟨?_, by simp [step, dispStep, hh, hr2]⟩
        simp only [step, dispStep, hh, if_pos hr2]
        rw [countKind_append]
        split <;> simp [countKind_single, countKind]
      · refine ⟨?_, by simp [step, dispStep, hh, hr2]⟩
        simp [step, dispStep, hh, hr2, countKind_append, countKind_single, techErr]
  | wellState w b =>
    simp only [step, wellStateStep]
    split
    · exact ⟨rfl, rfl⟩
    · exact ⟨by rw [countKind_append]; simp [countKind_single], rfl⟩
  | warningEvt k sev =>
    have hk : k ≠ .cross_contamination := by simpa [isCCWarningEvt] using hw
    refine ⟨?_, rfl⟩
    simp [step, warnStep, countKind_append, countKind_single, hk]

/-- A non-aspiration step keeps an empty contamination history empty. -/
lemma step_hist_empty (s : ExperimentState) (e : TEvent)
    (ha : isAspiration e = false) (he : s.pipette.contamination_history = []) :
    (step s e).pipette.contamination_history = [] := by
  rcases e with ⟨t, d⟩
  cases d with
  | settingChange v => exact he
  | tipChange => rfl
  | aspiration r v => simp [isAspiration] at ha
  | dispensing r v w =>
    rcases hh : s.pipette.held_reagent with _ | hr
    · simp [step, dispStep, hh, he]
    · by_cases hr2 : hr = r <;> simp [step, dispStep, hh, hr2, he, markLastViaWell]
  | wellState w b =>
    simp only [step, wellStateStep]
    split
    · exact he
    · exact he
  | warningEvt k sev => exact he

/-- A non-aspiration, non-tip-change step keeps the reagent of the most
recent contamination contact. -/
lemma step_lastReagent (s : ExperimentState) (e : TEvent)
    (ha : isAspiration e = false) (ht : isTipChange e = false) :
    ((step s e).pipette.contamination_history).getLast?.map (fun c => c.reagent) =
      (s.pipette.contamination_history).getLast?.map (fun c => c.reagent) := by
  rcases e with ⟨t, d⟩
  cases d with
  | settingChange v => rfl
  | tipChange => simp [isTipChange] at ht
  | aspiration r v => simp [isAspiration] at ha
  | dispensing r v w =>
    rcases hh : s.pipette.held_reagent with _ | hr
    · simp [step, dispStep, hh]
    · by_cases hr2 : hr = r
      · simp only [step, dispStep, hh, if_pos hr2]
        exact markLastViaWell_getLast_reagent _
      · simp [step, dispStep, hh, hr2]
  | wellState w b =>
    simp only [step, wellStateStep]
    split <;> rfl
  | warningEvt k sev => rfl

/-- Folding a segment without aspirations and without analysis cross
contamination warnings changes neither the cross contamination count nor
the edge log. -/
lemma reduce_cc_edges (l : List TEvent) :
    ∀ s : ExperimentState, (∀ e ∈ l, isAspiration e = false) →
    (∀ e ∈ l, isCCWarningEvt e = false) →
    countKind .cross_contamination (reduceTimeline s l).warnings =
      countKind .cross_contamination s.warnings ∧
    (reduceTimeline s l).edges = s.edges := by
  induction l with
  | nil => exact fun s _ _ => ⟨rfl, rfl⟩
  | cons e rest ih =>
    intro s ha hw
    have hstep := step_cc_edges s e (ha e (List.mem_cons_self _ _))
      (hw e (List.mem_cons_self _ _))
    have hrest := ih (step s e) (fun x hx => ha x (List.mem_cons_of_mem _ hx))
      (fun x hx => hw x (List.mem_cons_of_mem _ hx))
    exact ⟨hrest.1.trans hstep.1, hrest.2.trans hstep.2⟩

/-- Folding a segment without aspirations keeps an empty contamination
history empty. -/
lemma reduce_hist_empty (l : List TEvent) :
    ∀ s : ExperimentState, (∀ e ∈ l, isAspiration e = false) →
    s.pipette.contamination_history = [] →
    (reduceTimeline s l).pipette.contamination_history = [] := by
  induction l with
  | nil => exact fun s _ he => he
  | cons e rest ih =>
    intro s ha he
    exact ih (step s e) (fun x hx => ha x (List.mem_cons_of_mem _ hx))
      (step_hist_empty s e (ha e (List.mem_cons_self _ _)) he)

/-- Folding a segment without aspirations and tip changes keeps the reagent
of the most recent contamination contact. -/
lemma reduce_lastReagent (l : List TEvent) :
    ∀ s : ExperimentState, (∀ e ∈ l, isAspiration e = false) →
    (∀ e ∈ l, isTipChange e = false) →
    ((reduceTimeline s l).pipette.contamination_history).getLast?.map (fun c => c.reagent) =
      (s.pipette.contamination_history).getLast?.map (fun c => c.reagent) := by
  induction l with
  | nil => exact fun s _ _ => rfl
  | cons e rest ih =>
    intro s ha ht
    have hstep := step_lastReagent s e (ha e (List.mem_cons_self _ _))
      (ht e (List.mem_cons_self _ _))
    exact (ih (step s e) (fun x hx => ha x (List.mem_cons_of_mem _ hx))
      (fun x hx => ht x (List.mem_cons_of_mem _ hx))).trans hstep

/-- Splitting the fold over a concatenation. -/
lemma reduceTimeline_append (s : ExperimentState) (a b : List TEvent) :
    reduceTimeline s (a ++ b) = reduceTimeline (reduceTimeline s a) b := by
  simp [reduceTimeline, List.foldl_append]

/-- Unfolding the fold over a cons cell. -/
lemma reduceTimeline_cons (s : ExperimentState) (e : TEvent) (l : List TEvent) :
    reduceTimeline s (e :: l) = reduceTimeline (step s e) l := rfl

/-- An aspiration on an empty contamination history emits no cross
contamination warning and no edge, and leaves the aspirated reagent as the
most recent contact. -/
lemma aspStep_of_empty (s : ExperimentState) (t : ℚ) (r : String) (v : ℚ)
    (he : s.pipette.contamination_history = []) :
    countKind .cross_contamination (aspStep s t r v).warnings =
      countKind .cross_contamination s.warnings ∧
    (aspStep s t r v).edges = s.edges ∧
    ((aspStep s t r v).pipette.contamination_history).getLast?.map
      (fun c => c.reagent) = some r := by
  refine ⟨?_, ?_, ?_⟩
  · simp only [aspStep, he, List.getLast?_nil]
    rcases hc : alookup r s.containers with _ | rem
    · simp [hc, countKind_append]
    · simp only [hc]
      split <;> simp [countKind_append, countKind_single, countKind]
  · simp [aspStep, he]
  · simp [aspStep, he]

/-- An aspiration whose reagent differs from the most recent contamination
contact emits exactly one cross contamination warning and appends exactly
one edge directed from the prior reagent to the new one. -/
lemma aspStep_of_last (s : ExperimentState) (t : ℚ) (r : String) (v : ℚ)
    (r₁ : String)
    (hl : (s.pipette.contamination_history).getLast?.map (fun c => c.reagent) = some r₁)
    (hne : r₁ ≠ r) :
    countKind .cross_contamination (aspStep s t r v).warnings =
      countKind .cross_contamination s.warnings + 1 ∧
    (aspStep s t r v).edges.map (fun e => (e.source_reagent, e.target_reagent)) =
      s.edges.map (fun e => (e.source_reagent, e.target_reagent)) ++ [(r₁, r)] := by
  rcases Option.map_eq_some'.mp hl with ⟨last, hlast, hr1⟩
  have hz : ¬ last.reagent = r := by rw [hr1]; exact hne
  constructor
  · simp only [aspStep, hlast, if_neg hz]
    rcases hc : alookup r s.containers with _ | rem
    · simp [hc, countKind_append, countKind_single]
    · simp only [hc]
      split <;> simp [countKind_append, countKind_single, countKind]
  · simp only [aspStep, hlast, if_neg hz, hr1]
    rw [if_neg hne]
    simp

/-- Looking up in a list whose values were mapped. -/
lemma alookup_map_val {α β : Type} (f : α → β) (k : String) (l : List (String × α)) :
    alookup k (l.map (fun p => (p.1, f p.2))) = (alookup k l).map f := by
  induction l with
  | nil => rfl
  | cons p ps ih =>
    by_cases hp : p.1 = k <;> simp [alookup, hp, ih]

/-- The session start state satisfies the completion flag invariant. -/
lemma initState_WellsInv (g : List (String × List (String × ℚ)))
    (c : List (String × ℚ)) : WellsInv (initState g c) := by
  intro w wc hlook
  have : alookup w ((initState g c).wells) =
      (alookup w g).map (fun req => (⟨[], wellComplete [] req⟩ : WellContents)) := by
    simpa [initState] using
      alookup_map_val (fun req => (⟨[], wellComplete [] req⟩ : WellContents)) w g
  rw [this] at hlook
  rcases Option.map_eq_some'.mp hlook with ⟨req, hreq, hwc⟩
  subst hwc
  simp [initState, hreq]

/-- One reducer step preserves the completion flag invariant. -/
lemma step_WellsInv (s : ExperimentState) (e : TEvent) (h : WellsInv s) :
    WellsInv (step s e) := by
  rcases e with ⟨t, d⟩
  cases d with
  | settingChange v => exact h
  | tipChange => exact h
  | aspiration r v => exact h
  | dispensing r v w =>
    rcases hh : s.pipette.held_reagent with _ | hr
    · intro w2 wc hlook
      simp only [step, dispStep, hh] at hlook ⊢
      exact h w2 wc hlook
    · by_cases hr2 : hr = r
      · intro w2 wc hlook
        simp only [step, dispStep, hh, if_pos hr2] at hlook ⊢
        rw [alookup_aset] at hlook
        by_cases hww : w = w2
        · rw [if_pos hww] at hlook
          injection hlook with hx
          subst hx
          subst hww
          rfl
        · rw [if_neg hww] at hlook
          exact h w2 wc hlook
      · intro w2 wc hlook
        simp only [step, dispStep, hh, if_neg hr2] at hlook ⊢
        exact h w2 wc hlook
  | wellState w b =>
    have hwells : (step s ⟨t, .wellState w b⟩).wells = s.wells := by
      simp only [step, wellStateStep]
      split <;> rfl
    have hgoals : (step s ⟨t, .wellState w b⟩).goals = s.goals := by
      simp only [step, wellStateStep]
      split <;> rfl
    intro w2 wc hlook
    rw [hwells] at hlook
    rw [hgoals]
    exact h w2 wc hlook
  | warningEvt k sev => exact h

/-- Folding the reducer preserves the completion flag invariant. -/
lemma reduce_WellsInv (l : List TEvent) :
    ∀ s : ExperimentState, WellsInv s → WellsInv (reduceTimeline s l) := by
  induction l with
  | nil => exact fun s h => h
  | cons e rest ih => exact fun s h => ih (step s e) (step_WellsInv s e h)

/-- Folding the reducer never changes the goal declarations. -/
lemma reduce_goals (l : List TEvent) :
    ∀ s : ExperimentState, (reduceTimeline s l).goals = s.goals := by
  induction l with
  | nil => exact fun s => rfl
  | cons e rest ih => exact fun s => (ih (step s e)).trans (step_goals s e)

/-- One reducer step keeps all container volumes non-negative. -/
lemma step_containers_nonneg (s : ExperimentState) (e : TEvent)
    (h : ∀ p ∈ s.containers, (0:ℚ) ≤ p.2) :
    ∀ p ∈ (step s e).containers, (0:ℚ) ≤ p.2 := by
  rcases e with ⟨t, d⟩
  cases d with
  | settingChange v => exact h
  | tipChange => exact h
  | aspiration r v =>
    intro p hp
    simp only [step, aspStep] at hp
    rcases hc : alookup r s.containers with _ | rem
    · simp only [hc] at hp
      exact h p hp
    · simp only [hc] at hp
      by_cases hlt : rem < v
      · rw [if_pos hlt] at hp
        rcases mem_aset hp with h2 | h2
        · rw [h2]
        · exact h p h2
      · rw [if_neg hlt] at hp
        rcases mem_aset hp with h2 | h2
        · rw [h2]
          have : v ≤ rem := le_of_not_lt hlt
          linarith
        · exact h p h2
  | dispensing r v w =>
    rcases hh : s.pipette.held_reagent with _ | hr
    · simpa [step, dispStep, hh] using h
    · by_cases hr2 : hr = r <;> simpa [step, dispStep, hh, hr2] using h
  | wellState w b =>
    have : (step s ⟨t, .wellState w b⟩).containers = s.containers := by
      simp only [step, wellStateStep]
      split <;> rfl
    rw [this]
    exact h
  | warningEvt k sev => exact h

/-- The aspiration transition on a known container: a plain decrement when
the remaining volume suffices, otherwise a clamp to zero together with
exactly one fresh volume discrepancy warning. -/
lemma aspStep_container (s : ExperimentState) (t : ℚ) (r : String) (v rem : ℚ)
    (hc : alookup r s.containers = some rem) :
    (v ≤ rem →
      alookup r (aspStep s t r v).containers = some (rem - v) ∧
      countKind .volume_discrepancy (aspStep s t r v).warnings =
        countKind .volume_discrepancy s.warnings) ∧
    (rem < v →
      alookup r (aspStep s t r v).containers = some 0 ∧
      countKind .volume_discrepancy (aspStep s t r v).warnings =
        countKind .volume_discrepancy s.warnings + 1) := by
  have hcw : countKind .volume_discrepancy
      (match s.pipette.contamination_history.getLast? with
        | some last =>
          if last.reagent = r then []
          else [(⟨.cross_contamination, ccSeverity s.pipette.contamination_history,
            "cross contamination", t, none, none⟩ : Warn)]
        | none => []) = 0 := by
    split
    · split <;> simp [countKind, countKind_single]
    · simp [countKind]
  constructor
  · intro hle
    have hlt : ¬ rem < v := not_lt.mpr hle
    constructor
    · simp only [aspStep, hc, if_neg hlt]
      rw [alookup_aset]
      simp
    · simp only [aspStep, hc, if_neg hlt]
      rw [countKind_append, countKind_append, hcw]
      simp [countKind]
  · intro hlt
    constructor
    · simp only [aspStep, hc, if_pos hlt]
      rw [alookup_aset]
      simp
    · simp only [aspStep, hc, if_pos hlt]
      rw [countKind_append, countKind_append, hcw]
      simp [countKind, countKind_single]

/-- The aspiration transition under a sufficiently full (or untracked)
container appends no volume discrepancy warning, and any warnings it does
append are cross contamination warnings; the tip afterwards holds the
aspirated reagent and volume. -/
lemma aspStep_warnings_noclamp (s : ExperimentState) (t : ℚ) (r : String) (v : ℚ)
    (hc : ∀ rem, alookup r s.containers = some rem → v ≤ rem) :
    ∃ cw, (aspStep s t r v).warnings = s.warnings ++ cw ∧
      cw.filter (fun w => decide (w.kind = .volume_discrepancy)) = [] := by
  have hcont : (match alookup r s.containers with
      | some rem =>
        if rem < v then
          (aset r 0 s.containers,
            [(⟨.volume_discrepancy, .medium, "container clamped", t, some (v - rem),
              none⟩ : Warn)])
        else (aset r (rem - v) s.containers, [])
      | none => (s.containers, [])).2 = ([] : List Warn) := by
    rcases hcc : alookup r s.containers with _ | rem
    · rfl
    · have : ¬ rem < v := not_lt.mpr (hc rem hcc)
      simp [this]
  rcases hl : s.pipette.contamination_history.getLast? with _ | last
  · refine ⟨[], ?_, rfl⟩
    simp only [aspStep, hl]
    rw [hcont]
    simp
  · by_cases hlr : last.reagent = r
    · refine ⟨[], ?_, rfl⟩
      simp only [aspStep, hl, if_pos hlr]
      rw [hcont]
      simp
    · refine ⟨[⟨.cross_contamination, ccSeverity s.pipette.contamination_history,
        "cross contamination", t, none, none⟩], ?_, by simp⟩
      simp only [aspStep, hl, if_neg hlr]
      rw [hcont]
      simp

/-- Folding the reducer keeps all container volumes non-negative. -/
lemma reduce_containers_nonneg (l : List TEvent) :
    ∀ s : ExperimentState, (∀ p ∈ s.containers, (0:ℚ) ≤ p.2) →
    ∀ p ∈ (reduceTimeline s l).containers, (0:ℚ) ≤ p.2 := by
  induction l with
  | nil => exact fun s h => h
  | cons e rest ih => exact fun s h => ih (step s e) (step_containers_nonneg s e h)

/-- C1 counterexample: the recorded merged timeline of the repository is
not ordered by the claimed (start time, variant priority) key.  At indices
13 and 14 a well_state entry and a warning entry share start time 43 with
the well_state first, although the claimed priority puts Warning before
WellState; hence no stable sort by that key produced this output. -/
theorem c1_tiebreak_counterexample :
    specOrdered mergedTimeline = false ∧
    mergedTimeline[13]? = some ⟨43, 44, .well_state, "0:41 - 0:42"⟩ ∧
    mergedTimeline[14]? = some ⟨43, 46, .warning, "0:43 - 0:44"⟩ ∧
    mergedTimeline[26]? = some ⟨70, 71, .well_state, "1:06 - 1:07"⟩ ∧
    mergedTimeline[27]? = some ⟨70, 71, .tip_change, "1:10 - 1:11"⟩ := by
  decide

/-- C1 amended: the recorded merged timeline is sorted by start time
ascending; start-time ties are not resolved by the claimed fixed variant
priority. -/
theorem c1_merged_timeline_sorted_by_start :
    orderedByStart mergedTimeline = true := by decide

/-- C9 counterexample: the tip change entry at index 2 of the recorded
merged timeline resolves to start 13 and end 14 although its source
time-range string 0:11 - 0:12 converts to 11 and 12 seconds, so resolved
seconds do not equal the converted time-range values. -/
theorem c9_resolved_times_counterexample :
    mergedTimeline[2]? = some ⟨13, 14, .tip_change, "0:11 - 0:12"⟩ ∧
    tsRangeToSecs "0:11 - 0:12" = some (11, 12) ∧
    entryMatchesRange ⟨13, 14, .tip_change, "0:11 - 0:12"⟩ = false ∧
    mergedTimeline.all entryMatchesRange = false := by decide

/-- C9 amended: every entry of the recorded merged timeline carries a
time-range string that converts as MM:SS - MM:SS to seconds, and the
resolved start and end seconds are bounded below by the converted values,
but need not equal them. -/
theorem c9_ranges_parse_and_bound :
    mergedTimeline.all entryRangeParses = true := by decide

/-- C5: applying a TipChange event to any prior state sets tip_present to
true, empties the contamination history and clears the held reagent,
regardless of the prior pipette state. -/
theorem c5_tip_change_resets (s : ExperimentState) (t : ℚ) :
    (step s ⟨t, .tipChange⟩).pipette.tip_present = true ∧
    (step s ⟨t, .tipChange⟩).pipette.contamination_history = [] ∧
    (step s ⟨t, .tipChange⟩).pipette.held_reagent = none :=
  ⟨rfl, rfl, rfl⟩

/-- C10: a PipetteSettingChange event overwrites volume_setting with the
new value and changes nothing else: the resulting state is the prior state
with only that one pipette field replaced, so held_reagent, held_volume,
tip_present and contamination_history are untouched. -/
theorem c10_setting_change_frame (s : ExperimentState) (t v : ℚ) :
    step s ⟨t, .settingChange v⟩ =
      { s with pipette := { s.pipette with volume_setting := v } } := rfl

/-- C6: the modelled Timeline Merger is deterministic (as a pure function,
re-running it on the same three lists yields the identical timeline) and
idempotent (re-merging its own output with empty lists reproduces the
output unchanged, since a stable sort fixes an already sorted list). -/
theorem c6_merge_deterministic_idempotent (a b c : List MEntry) :
    mergeTimelines a b c = mergeTimelines a b c ∧
    mergeTimelines (mergeTimelines a b c) [] [] = mergeTimelines a b c := by
  refine ⟨rfl, ?_⟩
  show insertionSortE (insertionSortE (a ++ b ++ c) ++ [] ++ []) =
    insertionSortE (a ++ b ++ c)
  rw [List.append_nil, List.append_nil]
  exact insertionSortE_of_sorted (specOrdered_insertionSortE _)

/-- C4 counterexample: a Dispensing with no prior Aspiration produces a
next state whose new warning has kind technique_error, not
protocol_deviation as the claim states. -/
theorem c4_protocol_deviation_counterexample :
    countKind .protocol_deviation
      (reduceTimeline (initState [("A1", [("A", 30)])] [("A", 500)])
        [⟨0, .dispensing "A" 30 "A1"⟩]).warnings = 0 ∧
    countKind .technique_error
      (reduceTimeline (initState [("A1", [("A", 30)])] [("A", 500)])
        [⟨0, .dispensing "A" 30 "A1"⟩]).warnings = 1 := by decide

/-- C4 amended: the reducer step is a total function and never rejects a
well-formed event; a Dispensing with no prior Aspiration (empty held
reagent) yields the prior state unchanged except for exactly one appended
Warning, whose kind is technique_error. -/
theorem c4_dispense_without_aspiration_total (s : ExperimentState) (t v : ℚ)
    (r w : String) (hh : s.pipette.held_reagent = none) :
    step s ⟨t, .dispensing r v w⟩ =
      { s with warnings := s.warnings ++ [techErr t] } := by
  simp [step, dispStep, hh]

/-- Witness for C4 at a concrete input. -/
theorem c4_witness :
    (initState [] []).pipette.held_reagent = none ∧
    step (initState [] []) ⟨0, .dispensing "A" 30 "A1"⟩ =
      { initState [] [] with warnings := [techErr 0] } := by
  refine ⟨rfl, ?_⟩
  rw [c4_dispense_without_aspiration_total (initState [] []) 0 30 "A" "A1" rfl]
  rfl

/-- C8: in every state reachable from non-negative container volumes all
container volumes stay non-negative; an Aspiration decrements the matching
container by the aspirated volume when enough remains, and otherwise clamps
the volume to zero while emitting exactly one additional volume discrepancy
warning instead of failing. -/
theorem c8_container_nonneg_clamp :
    (∀ (s : ExperimentState) (es : List TEvent),
      (∀ p ∈ s.containers, (0:ℚ) ≤ p.2) →
      ∀ p ∈ (reduceTimeline s es).containers, (0:ℚ) ≤ p.2) ∧
    (∀ (s : ExperimentState) (t : ℚ) (r : String) (v rem : ℚ),
      alookup r s.containers = some rem →
      ((v ≤ rem →
        alookup r (step s ⟨t, .aspiration r v⟩).containers = some (rem - v) ∧
        countKind .volume_discrepancy (step s ⟨t, .aspiration r v⟩).warnings =
          countKind .volume_discrepancy s.warnings) ∧
       (rem < v →
        alookup r (step s ⟨t, .aspiration r v⟩).containers = some 0 ∧
        countKind .volume_discrepancy (step s ⟨t, .aspiration r v⟩).warnings =
          countKind .volume_discrepancy s.warnings + 1))) := by
  constructor
  · intro s es
    exact reduce_containers_nonneg es s
  · intro s t r v rem hc
    exact aspStep_container s t r v rem hc

/-- Witness for C8 at a concrete input: aspirating 600 from a container
holding 500 clamps it to zero with one volume discrepancy warning. -/
theorem c8_witness :
    (∀ p ∈ (reduceTimeline (initState [] [("A", 500)])
      [⟨0, .aspiration "A" 600⟩]).containers, (0:ℚ) ≤ p.2) ∧
    alookup "A" (step (initState [] [("A", 500)])
      ⟨0, .aspiration "A" 600⟩).containers = some 0 ∧
    countKind .volume_discrepancy (step (initState [] [("A", 500)])
      ⟨0, .aspiration "A" 600⟩).warnings = 1 := by
  refine ⟨c8_container_nonneg_clamp.1 _ _ (by decide), ?_, ?_⟩
  · exact ((c8_container_nonneg_clamp.2 (initState [] [("A", 500)]) 0 "A" 600 500
      (by decide)).2 (by norm_num)).1
  · have h := ((c8_container_nonneg_clamp.2 (initState [] [("A", 500)]) 0 "A" 600 500
      (by decide)).2 (by norm_num)).2
    simpa [countKind] using h

/-- C7: whenever a Dispensing of 25 of a reagent immediately follows an
Aspiration of 30 of the same reagent, and the matching container (if
tracked) holds at least 30 so that no clamp fires, the reducer emits
exactly one volume discrepancy warning among the new warnings, with
absolute difference 5 and relative difference 1/6 (about 16.7 percent). -/
theorem c7_volume_discrepancy_amounts (s : ExperimentState) (t₁ t₂ : ℚ)
    (r wl : String)
    (hc : ∀ rem, alookup r s.containers = some rem → (30:ℚ) ≤ rem) :
    ∃ ws, (reduceTimeline s
        [⟨t₁, .aspiration r 30⟩, ⟨t₂, .dispensing r 25 wl⟩]).warnings =
        s.warnings ++ ws ∧
      ws.filter (fun w => decide (w.kind = .volume_discrepancy)) =
        [⟨.volume_discrepancy, .medium, "volume discrepancy", t₂,
          some 5, some (1/6)⟩] := by
  obtain ⟨cw, hcw, hcwf⟩ := aspStep_warnings_noclamp s t₁ r 30 hc
  have hh : (aspStep s t₁ r 30).pipette.held_reagent = some r := rfl
  have hv : (aspStep s t₁ r 30).pipette.held_volume = 30 := rfl
  have htol : volTolerance (30:ℚ) < ratAbs ((25:ℚ) - 30) := by
    norm_num [volTolerance, ratAbs]
  have hdisp : (dispStep (aspStep s t₁ r 30) t₂ r 25 wl).warnings =
      (aspStep s t₁ r 30).warnings ++
        [⟨.volume_discrepancy, .medium, "volume discrepancy", t₂,
          some 5, some (1/6)⟩] := by
    simp only [dispStep, hh, hv, eq_self_iff_true, if_true, if_pos htol]
    norm_num [ratAbs]
  refine ⟨cw ++ [⟨.volume_discrepancy, .medium, "volume discrepancy", t₂,
    some 5, some (1/6)⟩], ?_, ?_⟩
  · show (dispStep (aspStep s t₁ r 30) t₂ r 25 wl).warnings = _
    rw [hdisp, hcw, List.append_assoc]
  · rw [List.filter_append, hcwf]
    simp

/-- Witness for C7 at a concrete input. -/
theorem c7_witness :
    (∀ rem, alookup "B" (initState [] [("B", 500)]).containers = some rem →
      (30:ℚ) ≤ rem) ∧
    ∃ ws, (reduceTimeline (initState [] [("B", 500)])
        [⟨1, .aspiration "B" 30⟩, ⟨2, .dispensing "B" 25 "A1"⟩]).warnings =
        (initState [] [("B", 500)]).warnings ++ ws ∧
      ws.filter (fun w => decide (w.kind = .volume_discrepancy)) =
        [⟨.volume_discrepancy, .medium, "volume discrepancy", 2,
          some 5, some (1/6)⟩] := by
  have hc : ∀ rem, alookup "B" (initState [] [("B", 500)]).containers = some rem →
      (30:ℚ) ≤ rem := by
    intro rem h
    simp only [initState, alookup, if_pos rfl] at h
    injection h with h2
    rw [← h2]
    norm_num
  exact ⟨hc, c7_volume_discrepancy_amounts (initState [] [("B", 500)]) 1 2 "B" "A1" hc⟩

/-- C2: on any timeline built from an aspiration-free prefix, a first
Aspiration of one reagent, an aspiration-free and tip-change-free middle, a
second Aspiration of a different reagent, and an aspiration-free suffix,
with no analysis warning event of kind cross contamination anywhere, the
reducer produces exactly one cross contamination warning and exactly one
ContaminationEdge, directed from the first reagent to the second. -/
theorem c2_cross_contamination_once
    (g : List (String × List (String × ℚ))) (c : List (String × ℚ))
    (l₁ l₂ l₃ : List TEvent) (t₁ t₂ v₁ v₂ : ℚ) (r₁ r₂ : String)
    (h1a : ∀ e ∈ l₁, isAspiration e = false)
    (h1w : ∀ e ∈ l₁, isCCWarningEvt e = false)
    (h2a : ∀ e ∈ l₂, isAspiration e = false)
    (h2t : ∀ e ∈ l₂, isTipChange e = false)
    (h2w : ∀ e ∈ l₂, isCCWarningEvt e = false)
    (h3a : ∀ e ∈ l₃, isAspiration e = false)
    (h3w : ∀ e ∈ l₃, isCCWarningEvt e = false)
    (hne : r₁ ≠ r₂) :
    countKind .cross_contamination
      (reduceTimeline (initState g c)
        (l₁ ++ (⟨t₁, .aspiration r₁ v₁⟩ :: (l₂ ++ (⟨t₂, .aspiration r₂ v₂⟩ :: l₃))))).warnings
      = 1 ∧
    (reduceTimeline (initState g c)
        (l₁ ++ (⟨t₁, .aspiration r₁ v₁⟩ :: (l₂ ++ (⟨t₂, .aspiration r₂ v₂⟩ :: l₃))))).edges.map
      (fun e => (e.source_reagent, e.target_reagent)) = [(r₁, r₂)] := by
  have hsplit : reduceTimeline (initState g c)
      (l₁ ++ (⟨t₁, .aspiration r₁ v₁⟩ :: (l₂ ++ (⟨t₂, .aspiration r₂ v₂⟩ :: l₃)))) =
      reduceTimeline (step (reduceTimeline (step (reduceTimeline (initState g c) l₁)
        ⟨t₁, .aspiration r₁ v₁⟩) l₂) ⟨t₂, .aspiration r₂ v₂⟩) l₃ := by
    rw [reduceTimeline_append, reduceTimeline_cons, reduceTimeline_append,
      reduceTimeline_cons]
  set s1 := reduceTimeline (initState g c) l₁ with hs1
  set s2 := step s1 ⟨t₁, .aspiration r₁ v₁⟩ with hs2
  set s3 := reduceTimeline s2 l₂ with hs3
  set s4 := step s3 ⟨t₂, .aspiration r₂ v₂⟩ with hs4
  have hA1 : countKind .cross_contamination s1.warnings = 0 :=
    (reduce_cc_edges l₁ (initState g c) h1a h1w).1
  have hA2 : s1.edges = [] := (reduce_cc_edges l₁ (initState g c) h1a h1w).2
  have hB : s1.pipette.contamination_history = [] :=
    reduce_hist_empty l₁ (initState g c) h1a rfl
  have hC := aspStep_of_empty s1 t₁ r₁ v₁ hB
  have hC1 : countKind .cross_contamination s2.warnings =
      countKind .cross_contamination s1.warnings := hC.1
  have hC2 : s2.edges = s1.edges := hC.2.1
  have hC3 : s2.pipette.contamination_history.getLast?.map
      (fun c => c.reagent) = some r₁ := hC.2.2
  have hD1 : countKind .cross_contamination s3.warnings =
      countKind .cross_contamination s2.warnings := (reduce_cc_edges l₂ s2 h2a h2w).1
  have hD2 : s3.edges = s2.edges := (reduce_cc_edges l₂ s2 h2a h2w).2
  have hE : s3.pipette.contamination_history.getLast?.map
      (fun c => c.reagent) = some r₁ :=
    (reduce_lastReagent l₂ s2 h2a h2t).trans hC3
  have hF := aspStep_of_last s3 t₂ r₂ v₂ r₁ hE hne
  have hF1 : countKind .cross_contamination s4.warnings =
      countKind .cross_contamination s3.warnings + 1 := hF.1
  have hF2 : s4.edges.map (fun e => (e.source_reagent, e.target_reagent)) =
      s3.edges.map (fun e => (e.source_reagent, e.target_reagent)) ++ [(r₁, r₂)] :=
    hF.2
  have hG1 : countKind .cross_contamination (reduceTimeline s4 l₃).warnings =
      countKind .cross_contamination s4.warnings := (reduce_cc_edges l₃ s4 h3a h3w).1
  have hG2 : (reduceTimeline s4 l₃).edges = s4.edges :=
    (reduce_cc_edges l₃ s4 h3a h3w).2
  constructor
  · rw [hsplit, hG1, hF1, hD1, hC1, hA1]
  · rw [hsplit, hG2, hF2, hD2, hC2, hA2]
    simp

/-- Witness for C2 at a concrete input: two simple aspirations of distinct
reagents with nothing around them. -/
theorem c2_witness :
    ("A" : String) ≠ "B" ∧
    countKind .cross_contamination
      (reduceTimeline (initState [] [])
        ([] ++ (⟨1, .aspiration "A" 30⟩ :: ([] ++ (⟨2, .aspiration "B" 30⟩ :: []))))).warnings
      = 1 ∧
    (reduceTimeline (initState [] [])
        ([] ++ (⟨1, .aspiration "A" 30⟩ :: ([] ++ (⟨2, .aspiration "B" 30⟩ :: []))))).edges.map
      (fun e => (e.source_reagent, e.target_reagent)) = [("A", "B")] := by
  have h := c2_cross_contamination_once [] [] [] [] [] 1 2 30 30 "A" "B"
    (fun e he => absurd he (List.not_mem_nil e))
    (fun e he => absurd he (List.not_mem_nil e))
    (fun e he => absurd he (List.not_mem_nil e))
    (fun e he => absurd he (List.not_mem_nil e))
    (fun e he => absurd he (List.not_mem_nil e))
    (fun e he => absurd he (List.not_mem_nil e))
    (fun e he => absurd he (List.not_mem_nil e))
    (by decide)
  exact ⟨by decide, h.1, h.2⟩

/-- C3: after any prefix of any timeline, every tracked well carries a
completion flag that is true exactly when its deposit multiset matches the
required (reagent, volume within tolerance) set of the matching GoalWell;
in particular a further non-required dispense keeps the flag equal to that
recomputed set equality. -/
theorem c3_completion_iff_multiset (g : List (String × List (String × ℚ)))
    (c : List (String × ℚ)) (es : List TEvent) (w : String) (wc : WellContents)
    (hlook : alookup w (reduceTimeline (initState g c) es).wells = some wc) :
    wc.is_complete = wellComplete wc.deposits ((alookup w g).getD []) := by
  have hinv := reduce_WellsInv es (initState g c) (initState_WellsInv g c)
  have hg := reduce_goals es (initState g c)
  have h := hinv w wc hlook
  rw [hg] at h
  exact h

/-- Witness for C3 at a concrete input. -/
theorem c3_witness :
    alookup "A1" (reduceTimeline (initState [("A1", [("A", 30)])] [("A", 500)])
      [⟨0, .tipChange⟩, ⟨1, .aspiration "A" 30⟩, ⟨2, .dispensing "A" 30 "A1"⟩]).wells =
      some ⟨[⟨"A", 30, 2⟩], true⟩ ∧
    (true : Bool) = wellComplete [⟨"A", 30, 2⟩] ((alookup "A1"
      [("A1", [("A", 30)])]).getD []) := by
  refine ⟨by with_unfolding_all decide, ?_⟩
  exact c3_completion_iff_multiset [("A1", [("A", 30)])] [("A", 500)]
    [⟨0, .tipChange⟩, ⟨1, .aspiration "A" 30⟩, ⟨2, .dispensing "A" 30 "A1"⟩]
    "A1" ⟨[⟨"A", 30, 2⟩], true⟩ (by with_unfolding_all decide)

end BioMemex
